import Mathlib

set_option maxHeartbeats 1000000

namespace MCP

/-- Runtime-configurable server settings, mirroring `ServerConfig` in
`ensemble-reasoning/modules/models.py` (default values as in the dataclass;
fields not consumed by any verified operation are omitted).  Python floats
are modelled as exact rationals. -/
structure ServerConfig where
  max_thoughts_per_session : Nat := 1000
  max_endorsements_per_thought : Nat := 100
  default_synthesis_threshold : ℚ := 6/10
  max_thoughts_per_agent_per_session : Nat := 50
  positive_endorsement_threshold : ℚ := 1/2
  negative_endorsement_threshold : ℚ := -(1/2)
  rate_limit_ops_per_window : Nat := 5
  rate_limit_window_seconds : Nat := 60
  max_thought_length : Nat := 4000
  max_note_length : Nat := 2000
  max_integration_length : Nat := 4000
  max_reconciles_per_integration : Nat := 50
deriving DecidableEq

/-- Default configuration (`ServerConfig()` with no YAML file and no
environment overrides). -/
def defaultConfig : ServerConfig := {}

/-- Fixed vocabulary of agent lenses: the keys of `AGENT_LENSES` in
`modules/models.py`. -/
def AGENT_LENS_NAMES : List String :=
  ["analytical", "skeptical", "creative", "pragmatic", "ethical"]

/-- One challenge record as appended by `tool_endorse_challenge`
(`modules/tools.py` lines 153-157). -/
structure Challenge where
  from_agent : String
  concern : String
  level : ℚ
deriving DecidableEq

/-- Mirrors the `CollaborativeThought` dataclass (`modules/models.py`).
The `endorsements` dict is modelled as an association list in insertion
order (Python dicts preserve insertion order; updating an existing key
keeps its position).  The creation timestamp is omitted: no verified
operation reads it. -/
structure CollaborativeThought where
  thought_id : Nat
  thought : String
  agent_lens : String
  builds_on : List Nat
  weight : ℚ
  endorsements : List (String × ℚ)
  challenges : List Challenge
deriving DecidableEq

/-- Mirrors the `IntegrationProposal` dataclass (timestamp omitted as above). -/
structure IntegrationProposal where
  proposal_id : Nat
  proposing_agent : String
  integration : String
  reconciles : List Nat
  endorsements : List (String × ℚ)
deriving DecidableEq

/-- Mirrors the mutable `EnsembleSession` class state (`modules/models.py`).
The `_thought_index` dict maps each id to the same object held in
`thoughts`, so lookups through it are modelled as searches of `thoughts`
(see `get_thought`); the `_agent_thoughts` index stores plain ids and is
kept as an explicit field, updated exactly as the source does. -/
structure EnsembleSession where
  session_id : String
  problem : String
  agent_lenses : List String
  thoughts : List CollaborativeThought
  integrations : List IntegrationProposal
  agent_thoughts : List (String × List Nat)
  next_thought_id : Nat
  next_proposal_id : Nat
deriving DecidableEq

/-- Constructor `EnsembleSession.__init__`. -/
def mkEnsembleSession (sid problem : String) (lenses : List String) : EnsembleSession :=
  { session_id := sid
    problem := problem
    agent_lenses := lenses
    thoughts := []
    integrations := []
    agent_thoughts := []
    next_thought_id := 1
    next_proposal_id := 1 }

/-- Lookup in `_agent_thoughts` with the `defaultdict` / `.get(k, [])`
reading used by the source. -/
def agentIdsOf (s : EnsembleSession) (lens : String) : List Nat :=
  ((s.agent_thoughts.find? (fun p => p.1 == lens)).map (fun p => p.2)).getD []

/-- Append a thought id to `_agent_thoughts[lens]` (`defaultdict(list)`
semantics: create the entry when absent). -/
def agentAppend (m : List (String × List Nat)) (lens : String) (tid : Nat) :
    List (String × List Nat) :=
  match m with
  | [] => [(lens, [tid])]
  | p :: rest => if p.1 == lens then (p.1, p.2 ++ [tid]) :: rest
                 else p :: agentAppend rest lens tid

/-- Models `EnsembleSession.get_thought`: the Python `_thought_index` maps an
id to the identical object stored in `thoughts`, so the lookup is modelled as
a search of the primary list. -/
def get_thought (s : EnsembleSession) (tid : Nat) : Option CollaborativeThought :=
  s.thoughts.find? (fun t => t.thought_id == tid)

/-- Models `EnsembleSession.add_thought` (`modules/models.py` lines 210-225).
A raised `ValueError` is modelled as `Except.error` carrying the message
prefix. -/
def add_thought (cfg : ServerConfig) (s : EnsembleSession) (th : CollaborativeThought) :
    Except String (EnsembleSession × Nat) :=
  if s.thoughts.length ≥ cfg.max_thoughts_per_session then
    .error "Session has reached maximum thoughts"
  else if (agentIdsOf s th.agent_lens).length ≥ cfg.max_thoughts_per_agent_per_session then
    .error "Agent has reached max thoughts in this session"
  else
    let t := { th with thought_id := s.next_thought_id }
    .ok ({ s with
            thoughts := s.thoughts ++ [t]
            agent_thoughts := agentAppend s.agent_thoughts t.agent_lens t.thought_id
            next_thought_id := s.next_thought_id + 1 }, t.thought_id)

/-- Models `EnsembleSession.add_integration`. -/
def add_integration (s : EnsembleSession) (p : IntegrationProposal) :
    EnsembleSession × Nat :=
  let q := { p with proposal_id := s.next_proposal_id }
  ({ s with
      integrations := s.integrations ++ [q]
      next_proposal_id := s.next_proposal_id + 1 }, q.proposal_id)

/-! Sliding-window rate limiter (`modules/models.py` lines 301-324).  The
nested `defaultdict(lambda: defaultdict(deque))` keyed first by session id
and then by agent lens is modelled as an association list keyed by the
`(session_id, agent_lens)` pair; `time.time()` is an explicit `now`
argument. -/

/-- Per-(session, agent) operation-timestamp queues. -/
structure RLState where
  ops : List ((String × String) × List ℚ)
deriving DecidableEq

/-- Queue lookup with empty-queue default (`defaultdict` semantics). -/
def rlGet (st : RLState) (k : String × String) : List ℚ :=
  ((st.ops.find? (fun p => p.1 == k)).map (fun p => p.2)).getD []

/-- Replace (or create) the queue stored under `k`. -/
def rlSetL (k : String × String) (v : List ℚ) :
    List ((String × String) × List ℚ) → List ((String × String) × List ℚ)
  | [] => [(k, v)]
  | p :: rest => if p.1 == k then (k, v) :: rest else p :: rlSetL k v rest

/-- State after replacing the queue stored under `k`. -/
def rlSet (st : RLState) (k : String × String) (v : List ℚ) : RLState :=
  ⟨rlSetL k v st.ops⟩

/-- Models the front-pruning loop
`while dq and dq[0] < cutoff: dq.popleft()` of `is_rate_limited`. -/
def pruneOld (cutoff : ℚ) : List ℚ → List ℚ
  | [] => []
  | t :: rest => if t < cutoff then pruneOld cutoff rest else t :: rest

/-- Models `is_rate_limited` (`modules/models.py` lines 301-313): prunes the
front of the queue, then compares the remaining count with the configured
limit.  Returns the verdict together with the updated state, because the
pruning mutates the stored deque. -/
def is_rate_limited (cfg : ServerConfig) (st : RLState) (now : ℚ)
    (session_id agent_lens : String) : Bool × RLState :=
  let cutoff := now - (cfg.rate_limit_window_seconds : ℚ)
  let dq := rlGet st (session_id, agent_lens)
  let dq2 := pruneOld cutoff dq
  (decide (cfg.rate_limit_ops_per_window ≤ dq2.length),
   rlSet st (session_id, agent_lens) dq2)

/-- Models `record_agent_op` (`modules/models.py` lines 316-324): appends
`now` to the queue unconditionally. -/
def record_agent_op (st : RLState) (now : ℚ) (session_id agent_lens : String) : RLState :=
  rlSet st (session_id, agent_lens) (rlGet st (session_id, agent_lens) ++ [now])

theorem rlGet_rlSet (st : RLState) (k : String × String) (v : List ℚ) :
    rlGet (rlSet st k v) k = v := by
  unfold rlGet rlSet
  induction st.ops with
  | nil => simp [rlSetL]
  | cons p rest ih =>
    by_cases h : p.1 == k
    · simp [rlSetL, h]
    · simp only [rlSetL, h, Bool.false_eq_true, if_false, List.find?_cons, h]
      simpa [rlGet, rlSet] using ih

theorem pruneOld_eq_dropWhile (cutoff : ℚ) (l : List ℚ) :
    pruneOld cutoff l = l.dropWhile (fun t => decide (t < cutoff)) := by
  induction l with
  | nil => rfl
  | cons t rest ih =>
    by_cases h : t < cutoff
    · simp [pruneOld, List.dropWhile, h, ih]
    · simp [pruneOld, List.dropWhile, h]

/-- Concrete rate-limiter scenario: six `record_agent_op` calls at times
0, 10, 20, 30, 40, 50 (all within 60s of the first), for one agent of one
session, starting from an empty limiter state. -/
def rlScenario : RLState :=
  [(0 : ℚ), 10, 20, 30, 40, 50].foldl
    (fun st t => record_agent_op st t "s" "analytical") ⟨[]⟩

/-- C5: for the sliding-window rate limiter, `is_rate_limited` first removes
every timestamp strictly older than `now - window` from the front of the
queue (the stored queue becomes the `dropWhile` of the old one) and then
returns true iff the remaining count is at least the configured limit;
`record_agent_op` appends the current time unconditionally.  With the default
window of 60s and limit 5, after 6 records within 60s of the first the agent
is limited, and once every recorded timestamp is older than the window the
check returns false and the queue has been pruned empty. -/
theorem rate_limiter_spec :
    (∀ (cfg : ServerConfig) (st : RLState) (now : ℚ) (sid ag : String),
      rlGet (is_rate_limited cfg st now sid ag).2 (sid, ag)
          = (rlGet st (sid, ag)).dropWhile
              (fun t => decide (t < now - (cfg.rate_limit_window_seconds : ℚ))) ∧
      ((is_rate_limited cfg st now sid ag).1 = true ↔
        cfg.rate_limit_ops_per_window ≤
          ((rlGet st (sid, ag)).dropWhile
            (fun t => decide (t < now - (cfg.rate_limit_window_seconds : ℚ)))).length)) ∧
    (∀ (st : RLState) (now : ℚ) (sid ag : String),
      rlGet (record_agent_op st now sid ag) (sid, ag) = rlGet st (sid, ag) ++ [now]) ∧
    (is_rate_limited defaultConfig rlScenario 50 "s" "analytical").1 = true ∧
    (is_rate_limited defaultConfig rlScenario 111 "s" "analytical").1 = false ∧
    rlGet (is_rate_limited defaultConfig rlScenario 111 "s" "analytical").2
      ("s", "analytical") = [] := by
  refine ⟨fun cfg st now sid ag => ⟨?_, ?_⟩, fun st now sid ag => ?_, ?_, ?_, ?_⟩
  · simp [is_rate_limited, rlGet_rlSet, pruneOld_eq_dropWhile]
  · simp [is_rate_limited, pruneOld_eq_dropWhile]
  · simp [record_agent_op, rlGet_rlSet]
  · norm_num [rlScenario, record_agent_op, rlGet, rlSet, rlSetL, is_rate_limited,
      pruneOld, defaultConfig]
  · norm_num [rlScenario, record_agent_op, rlGet, rlSet, rlSetL, is_rate_limited,
      pruneOld, defaultConfig]
  · norm_num [rlScenario, record_agent_op, rlGet, rlSet, rlSetL, is_rate_limited,
      pruneOld, defaultConfig]

/-! Convergence analyzer (`modules/utils.py`). -/

/-- Round an exact rational to the nearest integer, ties to even. -/
def roundHalfEven (x : ℚ) : ℤ :=
  let f : ℤ := Int.floor x
  if x - (f : ℚ) < 1/2 then f
  else if 1/2 < x - (f : ℚ) then f + 1
  else if f % 2 = 0 then f else f + 1

/-- Models Python `round(x, 2)` (banker's rounding to two decimal places)
over exact rationals.  Python rounds the binary float; this exact version
agrees with it at every value used in this development. -/
def pyRound2 (x : ℚ) : ℚ := ((roundHalfEven (100 * x) : ℤ) : ℚ) / 100

/-- One entry of the `consensus_thoughts` list built by
`calculate_consensus`. -/
structure ConsensusItem where
  thought_id : Nat
  agent : String
  thought : String
  agreement : ℚ
deriving DecidableEq

/-- Return value of `calculate_consensus`. -/
structure ConsensusResult where
  consensus_thoughts : List ConsensusItem
  avg_agreement : ℚ
deriving DecidableEq

/-- Loop body of `calculate_consensus` (`modules/utils.py` lines 12-27): the
accumulator carries the consensus list, the running `sum_endorsements` and
the running `count_endorsements`. -/
def consensusStep (threshold : ℚ) (acc : List ConsensusItem × ℚ × Nat)
    (thought : CollaborativeThought) : List ConsensusItem × ℚ × Nat :=
  if thought.endorsements = [] then acc
  else
    let values := thought.endorsements.map (fun p => p.2)
    let avg := values.sum / (values.length : ℚ)
    (if threshold ≤ avg then
        acc.1 ++ [⟨thought.thought_id, thought.agent_lens,
                   thought.thought.take 100, pyRound2 avg⟩]
      else acc.1,
     acc.2.1 + values.sum, acc.2.2 + values.length)

/-- Models `calculate_consensus` (`modules/utils.py` lines 4-34). -/
def calculate_consensus (session : EnsembleSession) (threshold : ℚ) : ConsensusResult :=
  if session.thoughts.length < 2 then ⟨[], 0⟩
  else
    let res := session.thoughts.foldl (consensusStep threshold) ([], 0, 0)
    ⟨res.1, pyRound2 (if res.2.2 = 0 then 0 else res.2.1 / (res.2.2 : ℚ))⟩

/-- Every individual endorsement value across every thought of the session,
in session order. -/
def allEndorsementValues (session : EnsembleSession) : List ℚ :=
  (session.thoughts.map (fun t => t.endorsements.map (fun p => p.2))).flatten

/-- Inner loop body of `compute_convergence_score`: counts
`(total_endorsements, positive_endorsements)` over one thought. -/
def convergenceStep (cfg : ServerConfig) (acc : Nat × Nat)
    (t : CollaborativeThought) : Nat × Nat :=
  t.endorsements.foldl
    (fun acc2 p => (acc2.1 + 1,
      if cfg.positive_endorsement_threshold ≤ p.2 then acc2.2 + 1 else acc2.2)) acc

/-- Models `compute_convergence_score` (`modules/utils.py` lines 60-76). -/
def compute_convergence_score (cfg : ServerConfig) (session : EnsembleSession) : ℚ :=
  if session.thoughts.length < 3 then 0
  else
    let res := session.thoughts.foldl (convergenceStep cfg) (0, 0)
    if res.1 = 0 then 0 else (res.2 : ℚ) / (res.1 : ℚ)

theorem consensus_fold_sum (threshold : ℚ) (l : List CollaborativeThought) :
    ∀ acc : List ConsensusItem × ℚ × Nat,
      (l.foldl (consensusStep threshold) acc).2.1
          = acc.2.1 + ((l.map (fun t => t.endorsements.map (fun p => p.2))).flatten).sum ∧
      (l.foldl (consensusStep threshold) acc).2.2
          = acc.2.2 + ((l.map (fun t => t.endorsements.map (fun p => p.2))).flatten).length := by
  induction l with
  | nil => intro acc; simp
  | cons t rest ih =>
    intro acc
    rcases ih (consensusStep threshold acc t) with ⟨h1, h2⟩
    by_cases he : t.endorsements = []
    · constructor
      · rw [List.foldl_cons, h1]; simp [consensusStep, he]
      · rw [List.foldl_cons, h2]; simp [consensusStep, he]
    · constructor
      · rw [List.foldl_cons, h1]; simp [consensusStep, he, add_assoc]
      · rw [List.foldl_cons, h2]; simp [consensusStep, he, Nat.add_assoc]

theorem convergence_fold_count (cfg : ServerConfig) (l : List CollaborativeThought) :
    ∀ acc : Nat × Nat,
      (l.foldl (convergenceStep cfg) acc).1
          = acc.1 + ((l.map (fun t => t.endorsements.map (fun p => p.2))).flatten).length ∧
      (l.foldl (convergenceStep cfg) acc).2
          = acc.2 + ((l.map (fun t => t.endorsements.map (fun p => p.2))).flatten).countP
              (fun v => decide (cfg.positive_endorsement_threshold ≤ v)) := by
  have inner : ∀ (es : List (String × ℚ)) (acc2 : Nat × Nat),
      (es.foldl (fun a p => (a.1 + 1,
          if cfg.positive_endorsement_threshold ≤ p.2 then a.2 + 1 else a.2)) acc2).1
        = acc2.1 + es.length ∧
      (es.foldl (fun a p => (a.1 + 1,
          if cfg.positive_endorsement_threshold ≤ p.2 then a.2 + 1 else a.2)) acc2).2
        = acc2.2 + (es.map (fun p => p.2)).countP
            (fun v => decide (cfg.positive_endorsement_threshold ≤ v)) := by
    intro es
    induction es with
    | nil => intro acc2; simp
    | cons p ps ihp =>
      intro acc2
      rcases ihp (acc2.1 + 1,
          if cfg.positive_endorsement_threshold ≤ p.2 then acc2.2 + 1 else acc2.2) with ⟨g1, g2⟩
      constructor
      · rw [List.foldl_cons, g1]; simp [List.length_cons]; omega
      · rw [List.foldl_cons, g2]
        by_cases hp : cfg.positive_endorsement_threshold ≤ p.2
        · simp [hp, List.countP_cons, Nat.add_comm, Nat.add_assoc, Nat.add_left_comm]
        · simp [hp, List.countP_cons]
  induction l with
  | nil => intro acc; simp
  | cons t rest ih =>
    intro acc
    rcases ih (convergenceStep cfg acc t) with ⟨h1, h2⟩
    rcases inner t.endorsements acc with ⟨g1, g2⟩
    constructor
    · rw [List.foldl_cons, h1, convergenceStep, g1]; simp [Nat.add_assoc]
    · rw [List.foldl_cons, h2, convergenceStep, g2]
      simp [List.countP_append, Nat.add_assoc]

/-- Helper to build a concrete thought for example sessions. -/
def exThought (tid : Nat) (lens : String) (deps : List Nat)
    (endo : List (String × ℚ)) : CollaborativeThought :=
  { thought_id := tid
    thought := "t"
    agent_lens := lens
    builds_on := deps
    weight := 1
    endorsements := endo
    challenges := [] }

/-- Example session for C3: thought A with endorsements `[1.0]` and thought
B with endorsements `[0.0, 0.0]`. -/
def exC3 : EnsembleSession :=
  { session_id := "exC3"
    problem := "p"
    agent_lenses := ["analytical", "skeptical", "creative"]
    thoughts := [exThought 1 "analytical" [] [("skeptical", 1)],
                 exThought 2 "skeptical" [] [("analytical", 0), ("creative", 0)]]
    integrations := []
    agent_thoughts := [("analytical", [1]), ("skeptical", [2])]
    next_thought_id := 3
    next_proposal_id := 1 }

/-- Example session for C4: three thoughts whose endorsement values are
`0.9`, `0.9` and `-0.9`. -/
def exC4 : EnsembleSession :=
  { session_id := "exC4"
    problem := "p"
    agent_lenses := ["analytical", "skeptical", "creative"]
    thoughts := [exThought 1 "analytical" [] [("skeptical", 9/10)],
                 exThought 2 "skeptical" [] [("analytical", 9/10)],
                 exThought 3 "creative" [] [("skeptical", -(9/10))]]
    integrations := []
    agent_thoughts := [("analytical", [1]), ("skeptical", [2]), ("creative", [3])]
    next_thought_id := 4
    next_proposal_id := 1 }

theorem pyRound2_third : pyRound2 (1/3) = 33/100 := by
  have hf : Int.floor ((100 : ℚ) * (1/3)) = 33 := by
    rw [Int.floor_eq_iff]
    norm_num
  simp only [pyRound2, roundHalfEven, hf]
  norm_num

/-- Stated from the spec's words, for contrast: the mean of the per-thought
mean endorsements (over thoughts that have at least one endorsement), which
the spec says the overall average is NOT. -/
def specMeanOfMeans (session : EnsembleSession) : ℚ :=
  let ms := (session.thoughts.filter (fun t => !t.endorsements.isEmpty)).map
    (fun t => (t.endorsements.map (fun p => p.2)).sum / ((t.endorsements.length : ℚ)))
  ms.sum / (ms.length : ℚ)

theorem consensus_exC3_eval :
    (calculate_consensus exC3 (6/10)).avg_agreement = 33/100 := by
  have h := consensus_fold_sum (6/10) exC3.thoughts ([], 0, 0)
  rcases h with ⟨h1, h2⟩
  rw [calculate_consensus, if_neg (by norm_num [exC3])]
  simp only
  rw [h1, h2]
  norm_num [exC3, exThought]
  exact pyRound2_third

theorem specMeanOfMeans_exC3_eval : specMeanOfMeans exC3 = 1/2 := by
  norm_num [specMeanOfMeans, exC3, exThought]

/-- C3 (counterexample to the claim as stated): on the spec's own example
session the returned overall agreement is the flat mean ROUNDED to two
decimal places, `0.33`, not the raw flat mean `1/3` the claim says is
returned (and also not the mean of per-thought means, `0.5`). -/
theorem claim_C3_counterexample :
    (calculate_consensus exC3 (6/10)).avg_agreement = 33/100 ∧
    (33 : ℚ)/100 ≠ 1/3 ∧
    specMeanOfMeans exC3 = 1/2 ∧
    (calculate_consensus exC3 (6/10)).avg_agreement ≠ specMeanOfMeans exC3 := by
  refine ⟨consensus_exC3_eval, by norm_num, specMeanOfMeans_exC3_eval, ?_⟩
  rw [consensus_exC3_eval, specMeanOfMeans_exC3_eval]
  norm_num

/-- C3 (amended): `calculate_consensus` returns as the overall agreement the
flat mean of every individual endorsement value across every thought —
not the mean of the per-thought means — ROUNDED half-even to two decimal
places, and returns `0.0` when the session has fewer than 2 thoughts or no
endorsements at all; on the spec's example the result is `0.33` (the rounding
of `1/3`), which differs from the (rounded or raw) mean of per-thought means
`0.5`. -/
theorem claim_C3_amended :
    (∀ (session : EnsembleSession) (threshold : ℚ),
      (calculate_consensus session threshold).avg_agreement =
        if session.thoughts.length < 2 then 0
        else if (allEndorsementValues session).length = 0 then 0
        else pyRound2 ((allEndorsementValues session).sum
              / ((allEndorsementValues session).length : ℚ))) ∧
    (calculate_consensus exC3 (6/10)).avg_agreement = 33/100 ∧
    pyRound2 (specMeanOfMeans exC3) = 1/2 ∧
    (33 : ℚ)/100 ≠ 1/2 := by
  refine ⟨?_, ?_, ?_, by norm_num⟩
  · intro session threshold
    by_cases hlt : session.thoughts.length < 2
    · simp [calculate_consensus, hlt]
    · rcases consensus_fold_sum threshold session.thoughts ([], 0, 0) with ⟨h1, h2⟩
      rw [if_neg hlt, calculate_consensus, if_neg hlt]
      simp only [allEndorsementValues]
      rw [h1, h2]
      norm_num
      split_ifs with hC
      · norm_num [pyRound2, roundHalfEven]
      · rfl
  · exact consensus_exC3_eval
  · rw [specMeanOfMeans_exC3_eval]
    have hf : Int.floor ((100 : ℚ) * (1/2)) = 50 := by
      rw [Int.floor_eq_iff]
      norm_num
    simp only [pyRound2, roundHalfEven, hf]
    norm_num

/-- C4: `compute_convergence_score` returns 0 for every session with fewer
than 3 thoughts and for every session with no endorsements; otherwise it
returns the count of individual endorsement values at or above the positive
threshold divided by the total count of individual endorsement values; in
particular 3 thoughts with endorsement values `[0.9, 0.9, -0.9]` against
positive threshold `0.5` give `2/3`. -/
theorem claim_C4 :
    (∀ (cfg : ServerConfig) (session : EnsembleSession),
      compute_convergence_score cfg session =
        if session.thoughts.length < 3 then 0
        else if (allEndorsementValues session).length = 0 then 0
        else (((allEndorsementValues session).countP
              (fun v => decide (cfg.positive_endorsement_threshold ≤ v)) : ℕ) : ℚ)
          / ((allEndorsementValues session).length : ℚ)) ∧
    compute_convergence_score defaultConfig exC4 = 2/3 := by
  constructor
  · intro cfg session
    by_cases hlt : session.thoughts.length < 3
    · simp [compute_convergence_score, hlt]
    · rcases convergence_fold_count cfg session.thoughts (0, 0) with ⟨h1, h2⟩
      rw [if_neg hlt, compute_convergence_score, if_neg hlt]
      simp only [allEndorsementValues]
      rw [h1, h2]
      norm_num
  · rcases convergence_fold_count defaultConfig exC4.thoughts (0, 0) with ⟨h1, h2⟩
    rw [compute_convergence_score, if_neg (by norm_num [exC4])]
    simp only
    rw [h1, h2]
    norm_num [exC4, exThought, List.countP_cons, defaultConfig]

/-! Cycle detection (`modules/utils.py` lines 79-142): iterative three-color
DFS over the `builds_on` graph with explicit stack, parent pointers, and a
set of rotation-normalized cycles. -/

/-- Read of the DFS `color` dict with default 0 (`color.get(n, 0)`:
0 = unvisited, 1 = visiting, 2 = done). -/
def natGetD (m : List (Nat × Nat)) (k : Nat) : Nat :=
  ((m.find? (fun p => p.1 == k)).map (fun p => p.2)).getD 0

/-- Optional read of the `parent` dict (`n in parent` / `parent[n]`). -/
def natGet (m : List (Nat × Nat)) (k : Nat) : Option Nat :=
  (m.find? (fun p => p.1 == k)).map (fun p => p.2)

/-- Dict update: replace the entry in place, else append. -/
def natSet (k v : Nat) : List (Nat × Nat) → List (Nat × Nat)
  | [] => [(k, v)]
  | p :: rest => if p.1 == k then (k, v) :: rest else p :: natSet k v rest

/-- Dict deletion (`parent.pop(start, None)`). -/
def natRemove (m : List (Nat × Nat)) (k : Nat) : List (Nat × Nat) :=
  m.filter (fun p => p.1 != k)

/-- Dependencies followed by the DFS:
`thought.builds_on if thought else []` (utils.py line 112). -/
def depsOf (sess : EnsembleSession) (node : Nat) : List Nat :=
  match get_thought sess node with
  | some t => t.builds_on
  | none => []

/-- Models `_normalize_cycle`: rotate the cycle so that its minimum id
(first occurrence) comes first. -/
def normalizeCycle (c : List Nat) : List Nat :=
  match c with
  | [] => []
  | x :: xs =>
    let m := xs.foldl min x
    let i := (x :: xs).indexOf m
    (x :: xs).drop i ++ (x :: xs).take i

/-- Models the parent-chain walk of the back-edge branch
(`cycle = [dep]; cur = node; while cur != dep and cur in parent:
cycle.append(cur); cur = parent[cur]`), returning the accumulated list when
`cur` reaches `dep`, and `none` when the walk leaves the parent map.  The
fuel argument only guards a diverging walk, which no reached run performs. -/
def cycleWalk (parent : List (Nat × Nat)) (dep : Nat) :
    Nat → Nat → List Nat → Option (List Nat)
  | 0, cur, acc => if cur = dep then some acc else none
  | fuel + 1, cur, acc =>
    if cur = dep then some acc
    else
      match natGet parent cur with
      | none => none
      | some p => cycleWalk parent dep fuel p (acc ++ [cur])

/-- Insertion into the accumulated `cycles_set` (set semantics). -/
def insertCycle (cs : List (List Nat)) (c : List Nat) : List (List Nat) :=
  if c ∈ cs then cs else cs ++ [c]

/-- State of the iterative DFS: colors, parent pointers, normalized cycles
found so far, and the explicit stack of `(node, next-child-index)` pairs.
The Python stack grows at the end of its list; here the top is the HEAD. -/
structure DfsState where
  color : List (Nat × Nat)
  parent : List (Nat × Nat)
  cycles : List (List Nat)
  stack : List (Nat × Nat)
deriving DecidableEq

/-- One iteration of the inner `while stack:` loop of `detect_cycles`.  The
source first advances the child index of the top entry and then acts on the
dependency's color; the advanced-top stack `(node, idx + 1) :: rest` is
written inline in each branch here instead of through the intermediate
mutation. -/
def dfsStep (sess : EnsembleSession) (st : DfsState) : DfsState :=
  match st.stack with
  | [] => st
  | (node, idx) :: rest =>
    match (depsOf sess node).get? idx with
    | none =>
      { st with color := natSet node 2 st.color, stack := rest }
    | some dep =>
      if natGetD st.color dep = 0 then
        { st with
            parent := natSet dep node st.parent
            color := natSet dep 1 st.color
            stack := (dep, 0) :: (node, idx + 1) :: rest }
      else if natGetD st.color dep = 1 then
        match cycleWalk st.parent dep (st.parent.length + 1) node [dep] with
        | some cyc =>
          { st with
              cycles := insertCycle st.cycles (normalizeCycle cyc.reverse)
              stack := (node, idx + 1) :: rest }
        | none => { st with stack := (node, idx + 1) :: rest }
      else { st with stack := (node, idx + 1) :: rest }

/-- Fuel-bounded run of the inner `while stack:` loop.  Every verified
property of `detect_cycles` is proved for all fuel values, and the provided
`dfsFuel` bound suffices for the concrete example sessions. -/
def runInner (sess : EnsembleSession) : Nat → DfsState → DfsState
  | 0, st => st
  | fuel + 1, st =>
    match st.stack with
    | [] => st
    | _ :: _ => runInner sess fuel (dfsStep sess st)

/-- Generous iteration bound for the DFS over a given session. -/
def dfsFuel (sess : EnsembleSession) : Nat :=
  let n := sess.thoughts.length
  let e := (sess.thoughts.map (fun t => t.builds_on.length)).sum
  (n + e + 2) * (n + e + 2)

/-- Models `detect_cycles` (`modules/utils.py` lines 79-142): the outer
`for start in [t.thought_id for t in session.thoughts]` loop with per-start
stack initialisation, followed by `sorted(cycles_set)` (Python sorts tuples
lexicographically; sorting is modelled by `List.insertionSort` under the
lexicographic order on `List Nat`). -/
def dfsOuter (sess : EnsembleSession) (st : DfsState) (start : Nat) : DfsState :=
  if natGetD st.color start ≠ 0 then st
  else runInner sess (dfsFuel sess)
    { st with
        color := natSet start 1 st.color
        parent := natRemove st.parent start
        stack := [(start, 0)] }

def detect_cycles (sess : EnsembleSession) : List (List Nat) :=
  List.insertionSort (fun a b => a ≤ b)
    ((sess.thoughts.map (fun t => t.thought_id)).foldl (dfsOuter sess)
      ⟨[], [], [], []⟩).cycles

/-- Membership extraction from a `natGet` hit. -/
theorem natGet_mem {m : List (Nat × Nat)} {k v : Nat} (h : natGet m k = some v) :
    (k, v) ∈ m := by
  unfold natGet at h
  cases hf : m.find? (fun p => p.1 == k) with
  | none => rw [hf] at h; simp at h
  | some q =>
    rw [hf] at h
    simp only [Option.map_some', Option.some.injEq] at h
    have hq := List.find?_some hf
    have hm := List.mem_of_find?_eq_some hf
    simp only [beq_iff_eq] at hq
    have : q = (k, v) := by
      obtain ⟨a, b⟩ := q
      simp only [Prod.mk.injEq]
      exact ⟨hq, h⟩
    rw [this] at hm
    exact hm

/-- Every parent-pointer entry runs from a smaller id to a larger id.  In a
session whose `builds_on` edges all point to strictly smaller ids, this is
an invariant of the DFS. -/
def ParentDecr (m : List (Nat × Nat)) : Prop := ∀ p ∈ m, p.1 < p.2

theorem parentDecr_natSet {k v : Nat} (hkv : k < v) :
    ∀ {m : List (Nat × Nat)}, ParentDecr m → ParentDecr (natSet k v m) := by
  intro m
  induction m with
  | nil =>
    intro _ p hp
    simp only [natSet, List.mem_singleton] at hp
    rw [hp]
    exact hkv
  | cons q rest ih =>
    intro hm p hp
    rw [natSet] at hp
    by_cases hq : q.1 == k
    · rw [if_pos hq] at hp
      rcases List.mem_cons.mp hp with h | h
      · rw [h]; exact hkv
      · exact hm p (List.mem_cons_of_mem _ h)
    · rw [if_neg hq] at hp
      rcases List.mem_cons.mp hp with h | h
      · exact h ▸ hm q (List.mem_cons_self _ _)
      · exact ih (fun r hr => hm r (List.mem_cons_of_mem _ hr)) p h

theorem parentDecr_natRemove {m : List (Nat × Nat)} (hm : ParentDecr m) (k : Nat) :
    ParentDecr (natRemove m k) := by
  intro p hp
  exact hm p (List.mem_of_mem_filter hp)

/-- When every parent pointer strictly increases and the target `dep` is
below the walk's starting point, the parent-chain walk can never reach
`dep`: it returns `none`.  This is why a session whose `builds_on` edges
all decrease can never record a cycle. -/
theorem cycleWalk_none {parent : List (Nat × Nat)} (hp : ParentDecr parent) {dep : Nat} :
    ∀ (fuel cur : Nat) (acc : List Nat), dep < cur →
      cycleWalk parent dep fuel cur acc = none := by
  intro fuel
  induction fuel with
  | zero =>
    intro cur acc hlt
    rw [cycleWalk, if_neg (by omega)]
  | succ n ih =>
    intro cur acc hlt
    rw [cycleWalk, if_neg (by omega)]
    cases hg : natGet parent cur with
    | none => rfl
    | some p2 =>
      have hcp := hp _ (natGet_mem hg)
      simp only at hcp
      exact ih p2 (acc ++ [cur]) (by omega)

/-- Sessions whose dependency references all point to strictly smaller
thought ids. -/
def DecrSess (sess : EnsembleSession) : Prop :=
  ∀ t ∈ sess.thoughts, ∀ d ∈ t.builds_on, d < t.thought_id

theorem depsOf_lt {sess : EnsembleSession} (hs : DecrSess sess) {node d : Nat}
    (hd : d ∈ depsOf sess node) : d < node := by
  unfold depsOf at hd
  cases hg : get_thought sess node with
  | none => rw [hg] at hd; simp at hd
  | some t =>
    rw [hg] at hd
    unfold get_thought at hg
    have hpred := List.find?_some hg
    have hmem := List.mem_of_find?_eq_some hg
    simp only [beq_iff_eq] at hpred
    have := hs t hmem d hd
    omega

/-- Invariant used for C9: no cycle recorded yet, and all parent pointers
increase. -/
def NoCycles (st : DfsState) : Prop := st.cycles = [] ∧ ParentDecr st.parent

theorem dfsStep_noCycles {sess : EnsembleSession} (hs : DecrSess sess)
    {st : DfsState} (h : NoCycles st) : NoCycles (dfsStep sess st) := by
  obtain ⟨hc, hp⟩ := h
  unfold dfsStep
  split
  · exact ⟨hc, hp⟩
  · rename_i node idx rest hstack
    split
    · exact ⟨hc, hp⟩
    · rename_i dep hdep
      have hmem : dep ∈ depsOf sess node := List.get?_mem hdep
      have hlt : dep < node := depsOf_lt hs hmem
      split_ifs with h0 h1
      · exact ⟨hc, parentDecr_natSet hlt hp⟩
      · rw [cycleWalk_none hp _ _ _ hlt]
        exact ⟨hc, hp⟩
      · exact ⟨hc, hp⟩

theorem runInner_noCycles {sess : EnsembleSession} (hs : DecrSess sess) :
    ∀ (fuel : Nat) {st : DfsState}, NoCycles st → NoCycles (runInner sess fuel st) := by
  intro fuel
  induction fuel with
  | zero => intro st h; exact h
  | succ n ih =>
    intro st h
    rw [runInner]
    cases hst : st.stack with
    | nil => exact h
    | cons a l => exact ih (dfsStep_noCycles hs h)

theorem detect_cycles_of_decr {sess : EnsembleSession} (hs : DecrSess sess) :
    detect_cycles sess = [] := by
  suffices hfold : ∀ (starts : List Nat) (st : DfsState), NoCycles st →
      NoCycles (starts.foldl (dfsOuter sess) st) by
    have h0 : NoCycles (⟨[], [], [], []⟩ : DfsState) := by
      refine ⟨rfl, ?_⟩
      intro p hp
      simp at hp
    have hall := hfold (sess.thoughts.map (fun t => t.thought_id)) _ h0
    unfold detect_cycles
    rw [hall.1]
    rfl
  intro starts
  induction starts with
  | nil => intro st h; exact h
  | cons s rest ih =>
    intro st h
    rw [List.foldl_cons]
    unfold dfsOuter
    by_cases hcol : natGetD st.color s ≠ 0
    · rw [if_pos hcol]
      exact ih st h
    · rw [if_neg hcol]
      refine ih _ (runInner_noCycles hs _ ?_)
      exact ⟨h.1, parentDecr_natRemove h.2 s⟩

/-- Canonical form of a recorded cycle: nonempty, and starting at an
element that is a lower bound of the whole list (its minimum). -/
def NormCyc (c : List Nat) : Prop :=
  ∃ hd tl, c = hd :: tl ∧ ∀ x ∈ c, hd ≤ x

theorem foldl_min_le (xs : List Nat) :
    ∀ a, xs.foldl min a ≤ a ∧ ∀ y ∈ xs, xs.foldl min a ≤ y := by
  induction xs with
  | nil =>
    intro a
    exact ⟨le_refl _, by simp⟩
  | cons y ys ih =>
    intro a
    obtain ⟨h1, h2⟩ := ih (min a y)
    rw [List.foldl_cons]
    refine ⟨le_trans h1 (min_le_left _ _), ?_⟩
    intro z hz
    rcases List.mem_cons.mp hz with rfl | hz
    · exact le_trans h1 (min_le_right _ _)
    · exact h2 z hz

theorem foldl_min_mem (xs : List Nat) :
    ∀ a, xs.foldl min a = a ∨ xs.foldl min a ∈ xs := by
  induction xs with
  | nil => intro a; left; rfl
  | cons y ys ih =>
    intro a
    rw [List.foldl_cons]
    rcases ih (min a y) with h | h
    · rcases min_choice a y with hm | hm
      · left; rw [h, hm]
      · right; rw [h, hm]; exact List.mem_cons_self _ _
    · right; exact List.mem_cons_of_mem _ h

theorem normalizeCycle_norm {c : List Nat} (hc : c ≠ []) : NormCyc (normalizeCycle c) := by
  cases c with
  | nil => exact absurd rfl hc
  | cons x xs =>
    rw [normalizeCycle]
    have hmem : xs.foldl min x ∈ x :: xs := by
      rcases foldl_min_mem xs x with h | h
      · rw [h]; exact List.mem_cons_self _ _
      · exact List.mem_cons_of_mem _ h
    have hle : ∀ y ∈ x :: xs, xs.foldl min x ≤ y := by
      intro y hy
      rcases List.mem_cons.mp hy with rfl | hy
      · exact (foldl_min_le xs y).1
      · exact (foldl_min_le xs x).2 y hy
    have hidx : (x :: xs).indexOf (xs.foldl min x) < (x :: xs).length :=
      List.indexOf_lt_length.mpr hmem
    have hdrop : (x :: xs).drop ((x :: xs).indexOf (xs.foldl min x))
        = xs.foldl min x :: (x :: xs).drop ((x :: xs).indexOf (xs.foldl min x) + 1) := by
      rw [List.drop_eq_getElem_cons hidx, List.getElem_indexOf hidx]
    refine ⟨xs.foldl min x,
      (x :: xs).drop ((x :: xs).indexOf (xs.foldl min x) + 1)
        ++ (x :: xs).take ((x :: xs).indexOf (xs.foldl min x)), ?_, ?_⟩
    · rw [hdrop, List.cons_append]
    · intro y hy
      rcases List.mem_append.mp hy with h | h
      · exact hle y (List.mem_of_mem_drop h)
      · exact hle y (List.mem_of_mem_take h)

theorem cycleWalk_ne_nil {parent : List (Nat × Nat)} {dep : Nat} :
    ∀ (fuel cur : Nat) (acc r : List Nat),
      cycleWalk parent dep fuel cur acc = some r → acc ≠ [] → r ≠ [] := by
  intro fuel
  induction fuel with
  | zero =>
    intro cur acc r h hacc
    rw [cycleWalk] at h
    by_cases hc : cur = dep
    · rw [if_pos hc] at h
      obtain rfl := Option.some.inj h
      exact hacc
    · rw [if_neg hc] at h
      cases h
  | succ n ih =>
    intro cur acc r h hacc
    rw [cycleWalk] at h
    by_cases hc : cur = dep
    · rw [if_pos hc] at h
      obtain rfl := Option.some.inj h
      exact hacc
    · rw [if_neg hc] at h
      cases hg : natGet parent cur with
      | none => rw [hg] at h; cases h
      | some p => rw [hg] at h; exact ih p (acc ++ [cur]) r h (by simp)

/-- Invariant used for C1: the accumulated cycle set has no duplicates and
every recorded cycle is in canonical (minimum-first) form. -/
def GoodCycles (st : DfsState) : Prop :=
  st.cycles.Nodup ∧ ∀ c ∈ st.cycles, NormCyc c

theorem insertCycle_good {cs : List (List Nat)} {c : List Nat}
    (h1 : cs.Nodup) (h2 : ∀ d ∈ cs, NormCyc d) (hc : NormCyc c) :
    (insertCycle cs c).Nodup ∧ ∀ d ∈ insertCycle cs c, NormCyc d := by
  unfold insertCycle
  by_cases hm : c ∈ cs
  · rw [if_pos hm]
    exact ⟨h1, h2⟩
  · rw [if_neg hm]
    constructor
    · simp [List.nodup_append, h1, hm]
    · intro d hd
      rcases List.mem_append.mp hd with hd | hd
      · exact h2 d hd
      · rw [List.mem_singleton.mp hd]
        exact hc

theorem dfsStep_goodCycles {sess : EnsembleSession} {st : DfsState}
    (h : GoodCycles st) : GoodCycles (dfsStep sess st) := by
  obtain ⟨h1, h2⟩ := h
  unfold dfsStep
  split
  · exact ⟨h1, h2⟩
  · rename_i node idx rest hstack
    split
    · exact ⟨h1, h2⟩
    · rename_i dep hdep
      split_ifs with hc0 hc1
      · exact ⟨h1, h2⟩
      · split
        · rename_i cyc hcw
          have hne : cyc ≠ [] := cycleWalk_ne_nil _ _ _ _ hcw (by simp)
          have hrev : cyc.reverse ≠ [] := by
            simpa using hne
          exact insertCycle_good h1 h2 (normalizeCycle_norm hrev)
        · exact ⟨h1, h2⟩
      · exact ⟨h1, h2⟩

theorem runInner_goodCycles {sess : EnsembleSession} :
    ∀ (fuel : Nat) {st : DfsState}, GoodCycles st → GoodCycles (runInner sess fuel st) := by
  intro fuel
  induction fuel with
  | zero => intro st h; exact h
  | succ n ih =>
    intro st h
    rw [runInner]
    cases hst : st.stack with
    | nil => exact h
    | cons a l => exact ih (dfsStep_goodCycles h)

theorem detect_cycles_goodCycles (sess : EnsembleSession) :
    ((sess.thoughts.map (fun t => t.thought_id)).foldl (dfsOuter sess)
        ⟨[], [], [], []⟩).cycles.Nodup ∧
    ∀ c ∈ ((sess.thoughts.map (fun t => t.thought_id)).foldl (dfsOuter sess)
        ⟨[], [], [], []⟩).cycles, NormCyc c := by
  suffices hfold : ∀ (starts : List Nat) (st : DfsState), GoodCycles st →
      GoodCycles (starts.foldl (dfsOuter sess) st) by
    exact hfold _ _ ⟨List.nodup_nil, by intro c hc; simp at hc⟩
  intro starts
  induction starts with
  | nil => intro st h; exact h
  | cons s rest ih =>
    intro st h
    rw [List.foldl_cons]
    unfold dfsOuter
    by_cases hcol : natGetD st.color s ≠ 0
    · rw [if_pos hcol]
      exact ih st h
    · rw [if_neg hcol]
      exact ih _ (runInner_goodCycles _ ⟨h.1, h.2⟩)

/-- Example session for C1 with dependencies 1→[2], 2→[3], 3→[1]. -/
def exCycle : EnsembleSession :=
  { session_id := "exCycle"
    problem := "p"
    agent_lenses := ["analytical", "skeptical"]
    thoughts := [exThought 1 "analytical" [2] [],
                 exThought 2 "skeptical" [3] [],
                 exThought 3 "analytical" [1] []]
    integrations := []
    agent_thoughts := [("analytical", [1, 3]), ("skeptical", [2])]
    next_thought_id := 4
    next_proposal_id := 1 }

/-- Example session for C1 with dependencies 1→[2], 2→[]. -/
def exChain : EnsembleSession :=
  { session_id := "exChain"
    problem := "p"
    agent_lenses := ["analytical", "skeptical"]
    thoughts := [exThought 1 "analytical" [2] [],
                 exThought 2 "skeptical" [] []]
    integrations := []
    agent_thoughts := [("analytical", [1]), ("skeptical", [2])]
    next_thought_id := 3
    next_proposal_id := 1 }

/-- C1: `detect_cycles` returns a lexicographically sorted list of distinct
cycles, each rotated so that it starts at its minimum thought id; the
session with dependencies 1→[2], 2→[3], 3→[1] yields exactly the one
canonical cycle `[1, 2, 3]` (the same cycle reached from any DFS root
collapses to this one entry), and the acyclic session 1→[2], 2→[] yields no
cycles. -/
theorem claim_C1 :
    (∀ sess : EnsembleSession,
      List.Sorted (fun a b => a ≤ b) (detect_cycles sess) ∧
      (detect_cycles sess).Nodup ∧
      ∀ c ∈ detect_cycles sess, ∃ hd tl, c = hd :: tl ∧ ∀ x ∈ c, hd ≤ x) ∧
    detect_cycles exCycle = [[1, 2, 3]] ∧
    detect_cycles exChain = [] := by
  refine ⟨?_, by decide, by decide⟩
  intro sess
  obtain ⟨hnd, hnc⟩ := detect_cycles_goodCycles sess
  unfold detect_cycles
  refine ⟨List.sorted_insertionSort _ _, ?_, ?_⟩
  · exact (List.perm_insertionSort _ _).symm.nodup hnd
  · intro c hc
    exact hnc c ((List.mem_insertionSort _).mp hc)

/-! Tool layer (`modules/tools.py`) and the dispatch boundary
(`server.py` `handle_call_tool`, lines 211-230).  Tool handlers return a
structured `_ok` / `_err` envelope or raise; the dispatch boundary converts
an uncaught exception into the structured catch-all `internal_error`.
Success payloads are not modelled; error kinds are the exact strings passed
to `_err`.  The claims under verification quantify over operations against
one resolved session, so session resolution
(`args.get("sessionId") or models.current_session_id`) is modelled as
always succeeding for that session. -/

/-- Result envelope of one tool call: success, a structured `_err` with its
kind and optional message, or a raised exception carrying its message. -/
inductive ToolOutcome where
  | ok : ToolOutcome
  | err : String → Option String → ToolOutcome
  | exn : String → ToolOutcome
deriving DecidableEq

/-- Models the `except Exception` boundary of `handle_call_tool`: a raised
exception becomes a structured `internal_error` with the exception message. -/
def dispatchOutcome : ToolOutcome → ToolOutcome
  | .exn m => .err "internal_error" (some m)
  | o => o

/-- Combined per-session state acted on by the tool handlers: the resolved
session together with the rate-limiter queues. -/
structure SessionState where
  session : EnsembleSession
  rl : RLState
deriving DecidableEq

/-- Python dict update on an endorsement map: overwrite the existing entry
in place, else append a new one. -/
def dictSet (m : List (String × ℚ)) (k : String) (v : ℚ) : List (String × ℚ) :=
  match m with
  | [] => [(k, v)]
  | p :: rest => if p.1 == k then (k, v) :: rest else p :: dictSet rest k v

/-- Python dict lookup on an endorsement map. -/
def dictGet (m : List (String × ℚ)) (k : String) : Option ℚ :=
  (m.find? (fun p => p.1 == k)).map (fun p => p.2)

/-- In-place mutation of the thought object shared by `thoughts` and
`_thought_index`: modelled by replacing the entry with the matching id in
the primary list. -/
def updateThought (s : EnsembleSession) (tid : Nat) (t2 : CollaborativeThought) :
    EnsembleSession :=
  { s with thoughts := s.thoughts.map (fun t => if t.thought_id == tid then t2 else t) }

/-- Models `tool_contribute` (`modules/tools.py` lines 62-111) after session
resolution; `now` stands for `time.time()` during the call.  The
`ValueError` raised by `add_thought` propagates as `.exn`. -/
def tool_contribute (cfg : ServerConfig) (st : SessionState) (now : ℚ)
    (agent_lens thought_text : String) (builds_on : List Nat) (weight : ℚ) :
    ToolOutcome × SessionState :=
  if agent_lens ∉ st.session.agent_lenses then
    (.err "agent_not_in_session" none, st)
  else if (is_rate_limited cfg st.rl now st.session.session_id agent_lens).1 then
    (.err "rate_limited" none,
     { st with rl := (is_rate_limited cfg st.rl now st.session.session_id agent_lens).2 })
  else if thought_text.length > cfg.max_thought_length then
    (.err "thought_too_long" none,
     { st with rl := (is_rate_limited cfg st.rl now st.session.session_id agent_lens).2 })
  else if builds_on.any (fun tid => (get_thought st.session tid).isNone) then
    (.err "invalid_buildsOn" none,
     { st with rl := (is_rate_limited cfg st.rl now st.session.session_id agent_lens).2 })
  else
    match add_thought cfg st.session
      { thought_id := 0
        thought := thought_text
        agent_lens := agent_lens
        builds_on := builds_on
        weight := max 0 (min 1 weight)
        endorsements := []
        challenges := [] } with
    | .error m =>
      (.exn m,
       { st with rl := (is_rate_limited cfg st.rl now st.session.session_id agent_lens).2 })
    | .ok (s2, _) =>
      (.ok,
       { session := s2
         rl := record_agent_op
           (is_rate_limited cfg st.rl now st.session.session_id agent_lens).2
           now st.session.session_id agent_lens })

/-- Models `tool_endorse_challenge` (`modules/tools.py` lines 114-176) after
session resolution.  The level is clamped on entry (tools.py line 123). -/
def tool_endorse_challenge (cfg : ServerConfig) (st : SessionState) (now : ℚ)
    (thought_id : Nat) (agent_lens : String) (endorsementLevel : ℚ) (note : String) :
    ToolOutcome × SessionState :=
  match get_thought st.session thought_id with
  | none => (.err "thought_not_found" none, st)
  | some thought =>
    if agent_lens ∉ st.session.agent_lenses then
      (.err "agent_not_in_session" none, st)
    else if (is_rate_limited cfg st.rl now st.session.session_id agent_lens).1 then
      (.err "rate_limited" none,
       { st with rl := (is_rate_limited cfg st.rl now st.session.session_id agent_lens).2 })
    else if note ≠ "" ∧ note.length > cfg.max_note_length then
      (.err "note_too_long" none,
       { st with rl := (is_rate_limited cfg st.rl now st.session.session_id agent_lens).2 })
    else if agent_lens = thought.agent_lens then
      (.err "self_endorsement_not_allowed" none,
       { st with rl := (is_rate_limited cfg st.rl now st.session.session_id agent_lens).2 })
    else if thought.endorsements.length ≥ cfg.max_endorsements_per_thought then
      (.err "max_endorsements_reached" none,
       { st with rl := (is_rate_limited cfg st.rl now st.session.session_id agent_lens).2 })
    else
      (.ok,
       { session := updateThought st.session thought_id
           { thought with
               endorsements := dictSet thought.endorsements agent_lens
                 (max (-1) (min 1 endorsementLevel))
               challenges := thought.challenges ++
                 (if max (-1) (min 1 endorsementLevel) < 0 ∧ note ≠ "" then
                    [{ from_agent := agent_lens, concern := note,
                       level := max (-1) (min 1 endorsementLevel) }]
                  else []) }
         rl := record_agent_op
           (is_rate_limited cfg st.rl now st.session.session_id agent_lens).2
           now st.session.session_id agent_lens })

/-- Models `tool_propose_integration` (`modules/tools.py` lines 214-271)
after session resolution.  The `isinstance` checks on `reconciles` are
enforced by the argument type. -/
def tool_propose_integration (cfg : ServerConfig) (st : SessionState) (now : ℚ)
    (agent_lens integration : String) (reconciles : List Nat) :
    ToolOutcome × SessionState :=
  if agent_lens ∉ st.session.agent_lenses then
    (.err "agent_not_in_session" none, st)
  else if (is_rate_limited cfg st.rl now st.session.session_id agent_lens).1 then
    (.err "rate_limited" none,
     { st with rl := (is_rate_limited cfg st.rl now st.session.session_id agent_lens).2 })
  else if integration.length > cfg.max_integration_length then
    (.err "integration_too_long" none,
     { st with rl := (is_rate_limited cfg st.rl now st.session.session_id agent_lens).2 })
  else if reconciles.length > cfg.max_reconciles_per_integration then
    (.err "too_many_reconciles" none,
     { st with rl := (is_rate_limited cfg st.rl now st.session.session_id agent_lens).2 })
  else if reconciles.any (fun tid => (get_thought st.session tid).isNone) then
    (.err "invalid_reconciles" none,
     { st with rl := (is_rate_limited cfg st.rl now st.session.session_id agent_lens).2 })
  else
    (.ok,
     { session := (add_integration st.session
         { proposal_id := 0
           proposing_agent := agent_lens
           integration := integration
           reconciles := reconciles
           endorsements := [] }).1
       rl := record_agent_op
         (is_rate_limited cfg st.rl now st.session.session_id agent_lens).2
         now st.session.session_id agent_lens })

/-- One invocation of a mutating tool, with the wall-clock time at the
call. -/
inductive Op where
  | contribute (now : ℚ) (agentLens thought : String) (buildsOn : List Nat) (weight : ℚ)
  | endorse (now : ℚ) (thoughtId : Nat) (agentLens : String) (level : ℚ) (note : String)
  | integrate (now : ℚ) (agentLens integration : String) (reconciles : List Nat)

/-- Dispatch of one operation through `handle_call_tool`. -/
def runOp (cfg : ServerConfig) (st : SessionState) : Op → ToolOutcome × SessionState
  | .contribute now a t b w =>
    ((tool_contribute cfg st now a t b w).map dispatchOutcome id)
  | .endorse now tid a l n =>
    ((tool_endorse_challenge cfg st now tid a l n).map dispatchOutcome id)
  | .integrate now a i r =>
    ((tool_propose_integration cfg st now a i r).map dispatchOutcome id)

/-- Per-session state right after `tool_start_collaborative` creates the
session (empty session, empty rate-limiter queues). -/
def initState (sid problem : String) (lenses : List String) : SessionState :=
  ⟨mkEnsembleSession sid problem lenses, ⟨[]⟩⟩

/-- Indicator of a successful contribute call. -/
def contribFlag : Op → ToolOutcome → Nat
  | .contribute _ _ _ _ _, .ok => 1
  | _, _ => 0

/-- Run a list of operations, counting the successful contribute calls. -/
def runTrace (cfg : ServerConfig) (st : SessionState) :
    List Op → SessionState × Nat
  | [] => (st, 0)
  | op :: rest =>
    ((runTrace cfg (runOp cfg st op).2 rest).1,
     contribFlag op (runOp cfg st op).1 + (runTrace cfg (runOp cfg st op).2 rest).2)

/-- Configuration whose global session cap is already reached by an empty
session. -/
def cfgC6S : ServerConfig := { defaultConfig with max_thoughts_per_session := 0 }

/-- Configuration whose per-agent cap is already reached by an agent with no
thoughts. -/
def cfgC6A : ServerConfig := { defaultConfig with max_thoughts_per_agent_per_session := 0 }

/-- Freshly started two-agent session with empty rate-limiter state. -/
def stStart : SessionState := initState "s" "p" ["analytical", "skeptical"]

/-- C6 (counterexample to the claim as stated): when a capacity cap is hit,
`add_thought` raises `ValueError` and the dispatch boundary reports the
generic catch-all kind `internal_error` for BOTH the session cap and the
per-agent cap — there is no capacity-specific structured error kind
(`session_capacity_exceeded` / `agent_capacity_exceeded`), the two cases are
distinguishable only by the exception message. -/
theorem claim_C6_counterexample :
    (runOp cfgC6S stStart (.contribute 0 "analytical" "x" [] 1)).1
      = .err "internal_error" (some "Session has reached maximum thoughts") ∧
    (runOp cfgC6A stStart (.contribute 0 "analytical" "x" [] 1)).1
      = .err "internal_error" (some "Agent has reached max thoughts in this session") ∧
    "internal_error" ≠ "session_capacity_exceeded" ∧
    "internal_error" ≠ "agent_capacity_exceeded" := by
  exact ⟨by decide, by decide, by decide, by decide⟩

/-- C6 (amended): when a contribute call that passes every tool-level check
hits the session cap or the per-agent cap, `add_thought` raises and the
caller receives the non-fatal structured catch-all error
`internal_error` whose message names the exhausted cap; the session (thought
list and indices alike) is unchanged. -/
theorem claim_C6_amended (cfg : ServerConfig) (st : SessionState) (now : ℚ)
    (agent text : String) (bOn : List Nat) (w : ℚ)
    (hagent : agent ∈ st.session.agent_lenses)
    (hrate : (is_rate_limited cfg st.rl now st.session.session_id agent).1 = false)
    (hlen : ¬ text.length > cfg.max_thought_length)
    (hrefs : bOn.any (fun tid => (get_thought st.session tid).isNone) = false)
    (hcap : st.session.thoughts.length ≥ cfg.max_thoughts_per_session ∨
      (agentIdsOf st.session agent).length ≥ cfg.max_thoughts_per_agent_per_session) :
    ((runOp cfg st (.contribute now agent text bOn w)).1
        = .err "internal_error" (some "Session has reached maximum thoughts") ∨
     (runOp cfg st (.contribute now agent text bOn w)).1
        = .err "internal_error" (some "Agent has reached max thoughts in this session")) ∧
    (runOp cfg st (.contribute now agent text bOn w)).2.session = st.session := by
  by_cases hcs : st.session.thoughts.length ≥ cfg.max_thoughts_per_session
  · have hadd : add_thought cfg st.session
        { thought_id := 0
          thought := text
          agent_lens := agent
          builds_on := bOn
          weight := max 0 (min 1 w)
          endorsements := []
          challenges := [] } = .error "Session has reached maximum thoughts" := by
      rw [add_thought, if_pos hcs]
    constructor
    · left
      simp [runOp, tool_contribute, hagent, hrate, hlen, hrefs, hadd, dispatchOutcome]
    · simp [runOp, tool_contribute, hagent, hrate, hlen, hrefs, hadd, dispatchOutcome]
  · have hca : (agentIdsOf st.session agent).length
        ≥ cfg.max_thoughts_per_agent_per_session := hcap.resolve_left hcs
    have hadd : add_thought cfg st.session
        { thought_id := 0
          thought := text
          agent_lens := agent
          builds_on := bOn
          weight := max 0 (min 1 w)
          endorsements := []
          challenges := [] } = .error "Agent has reached max thoughts in this session" := by
      rw [add_thought, if_neg hcs, if_pos hca]
    constructor
    · right
      simp [runOp, tool_contribute, hagent, hrate, hlen, hrefs, hadd, dispatchOutcome]
    · simp [runOp, tool_contribute, hagent, hrate, hlen, hrefs, hadd, dispatchOutcome]

/-- C6 witness: a concrete contribute against a session whose global cap is 0
is rejected through the catch-all with the session-cap message, and the
session is unchanged. -/
theorem claim_C6_amended_witness :
    ((runOp cfgC6S stStart (.contribute 0 "analytical" "x" [] 1)).1
        = .err "internal_error" (some "Session has reached maximum thoughts") ∨
     (runOp cfgC6S stStart (.contribute 0 "analytical" "x" [] 1)).1
        = .err "internal_error" (some "Agent has reached max thoughts in this session")) ∧
    (runOp cfgC6S stStart (.contribute 0 "analytical" "x" [] 1)).2.session
      = stStart.session :=
  claim_C6_amended cfgC6S stStart 0 "analytical" "x" [] 1 (by decide) (by decide)
    (by decide) (by decide) (Or.inl (by decide))

/-- Session with one thought authored by `analytical`, whose author has
exhausted the rate window (five timestamps inside the 60s window at
`now = 10`). -/
def stC7 : SessionState :=
  ⟨{ session_id := "s"
     problem := "p"
     agent_lenses := ["analytical", "skeptical"]
     thoughts := [exThought 1 "analytical" [] []]
     integrations := []
     agent_thoughts := [("analytical", [1])]
     next_thought_id := 2
     next_proposal_id := 1 },
   ⟨[(("s", "analytical"), [0, 1, 2, 3, 4])]⟩⟩

/-- Same session as `stC7` but with an empty rate-limiter state. -/
def stC7unlim : SessionState := ⟨stC7.session, ⟨[]⟩⟩

theorem stC7_rl_limited :
    is_rate_limited defaultConfig (⟨[(("s", "analytical"), [0, 1, 2, 3, 4])]⟩ : RLState)
        10 "s" "analytical" =
      (true, (⟨[(("s", "analytical"), [0, 1, 2, 3, 4])]⟩ : RLState)) := by
  norm_num [is_rate_limited, rlGet, rlSet, rlSetL, pruneOld, defaultConfig]

/-- C7 (counterexample to the claim as stated): an endorse call by the
thought's own author does NOT always fail with
`self_endorsement_not_allowed` — when the author is rate-limited the earlier
rate check fires first and the call fails with `rate_limited` (the
endorsement map is still untouched). -/
theorem claim_C7_counterexample :
    (runOp defaultConfig stC7 (.endorse 10 1 "analytical" 1 "")).1
      = .err "rate_limited" none ∧
    (get_thought stC7.session 1).map (fun t => t.agent_lens) = some "analytical" ∧
    ToolOutcome.err "rate_limited" none
      ≠ ToolOutcome.err "self_endorsement_not_allowed" none ∧
    (runOp defaultConfig stC7 (.endorse 10 1 "analytical" 1 "")).2.session
      = stC7.session := by
  refine ⟨?_, by decide, by decide, ?_⟩
  · simp [runOp, tool_endorse_challenge, get_thought, stC7, exThought, stC7_rl_limited,
      dispatchOutcome, List.find?]
  · simp [runOp, tool_endorse_challenge, get_thought, stC7, exThought, stC7_rl_limited,
      dispatchOutcome, List.find?]

/-- C7 (amended): validation failures leave the session unchanged.  A
contribute call by an agent outside the session's participants always fails
with `agent_not_in_session` and leaves the entire state (session and
rate-limiter queues) unchanged.  An endorse call by the thought's own author
always fails with SOME structured error and never mutates the session (in
particular the endorsement map); its error kind is
`self_endorsement_not_allowed` provided the earlier checks pass (author in
session, not rate-limited, note within bounds), while a rate-limited author
receives `rate_limited` instead. -/
theorem claim_C7_amended :
    (∀ (cfg : ServerConfig) (st : SessionState) (now : ℚ) (agent text : String)
        (bOn : List Nat) (w : ℚ), agent ∉ st.session.agent_lenses →
      (runOp cfg st (.contribute now agent text bOn w)).1
        = .err "agent_not_in_session" none ∧
      (runOp cfg st (.contribute now agent text bOn w)).2 = st) ∧
    (∀ (cfg : ServerConfig) (st : SessionState) (now : ℚ) (tid : Nat) (agent : String)
        (lvl : ℚ) (note : String) (thought : CollaborativeThought),
      get_thought st.session tid = some thought → agent = thought.agent_lens →
      (∃ k m, (runOp cfg st (.endorse now tid agent lvl note)).1 = .err k m) ∧
      (runOp cfg st (.endorse now tid agent lvl note)).2.session = st.session ∧
      (agent ∈ st.session.agent_lenses →
        (is_rate_limited cfg st.rl now st.session.session_id agent).1 = false →
        ¬(note ≠ "" ∧ note.length > cfg.max_note_length) →
        (runOp cfg st (.endorse now tid agent lvl note)).1
          = .err "self_endorsement_not_allowed" none)) := by
  constructor
  · intro cfg st now agent text bOn w hout
    constructor
    · simp [runOp, tool_contribute, hout, dispatchOutcome]
    · simp [runOp, tool_contribute, hout, dispatchOutcome]
  · intro cfg st now tid agent lvl note thought hg hauthor
    subst hauthor
    by_cases hmem : thought.agent_lens ∈ st.session.agent_lenses
    · by_cases hr : (is_rate_limited cfg st.rl now st.session.session_id
          thought.agent_lens).1 = true
      · refine ⟨⟨"rate_limited", none, ?_⟩, ?_, ?_⟩
        · simp [runOp, tool_endorse_challenge, hg, hmem, hr, dispatchOutcome]
        · simp [runOp, tool_endorse_challenge, hg, hmem, hr, dispatchOutcome]
        · intro _ hrate _
          rw [hr] at hrate
          cases hrate
      · by_cases hn : note ≠ "" ∧ note.length > cfg.max_note_length
        · refine ⟨⟨"note_too_long", none, ?_⟩, ?_, ?_⟩
          · simp [runOp, tool_endorse_challenge, hg, hmem, hr, hn, dispatchOutcome]
          · simp [runOp, tool_endorse_challenge, hg, hmem, hr, hn, dispatchOutcome]
          · intro _ _ hnote
            exact absurd hn hnote
        · refine ⟨⟨"self_endorsement_not_allowed", none, ?_⟩, ?_, ?_⟩
          · simp [runOp, tool_endorse_challenge, hg, hmem, hr, hn, dispatchOutcome]
          · simp [runOp, tool_endorse_challenge, hg, hmem, hr, hn, dispatchOutcome]
          · intro _ _ _
            simp [runOp, tool_endorse_challenge, hg, hmem, hr, hn, dispatchOutcome]
    · refine ⟨⟨"agent_not_in_session", none, ?_⟩, ?_, ?_⟩
      · simp [runOp, tool_endorse_challenge, hg, hmem, dispatchOutcome]
      · simp [runOp, tool_endorse_challenge, hg, hmem, dispatchOutcome]
      · intro hmem2
        exact absurd hmem2 hmem

/-- C7 witness: a concrete contribute by a non-participant fails with
`agent_not_in_session` leaving the state unchanged, and a concrete
endorse-own-thought call in an un-limited state fails with
`self_endorsement_not_allowed`. -/
theorem claim_C7_amended_witness :
    (runOp defaultConfig stStart (.contribute 0 "creative" "x" [] 1)).1
      = .err "agent_not_in_session" none ∧
    (runOp defaultConfig stC7unlim (.endorse 0 1 "analytical" 1 "")).1
      = .err "self_endorsement_not_allowed" none := by
  constructor
  · exact (claim_C7_amended.1 defaultConfig stStart 0 "creative" "x" [] 1 (by decide)).1
  · exact (claim_C7_amended.2 defaultConfig stC7unlim 0 1 "analytical" 1 ""
      (exThought 1 "analytical" [] []) (by decide) (by decide)).2.2
      (by decide) (by decide) (by decide)

theorem get_thought_id {s : EnsembleSession} {tid : Nat} {t : CollaborativeThought}
    (hg : get_thought s tid = some t) : t.thought_id = tid := by
  have := List.find?_some hg
  simpa using this

theorem find?_map_update {l : List CollaborativeThought} {tid : Nat}
    {thought : CollaborativeThought}
    (hg : l.find? (fun t => t.thought_id == tid) = some thought)
    (t2 : CollaborativeThought) (hid : t2.thought_id = tid) :
    (l.map (fun t => if t.thought_id == tid then t2 else t)).find?
      (fun t => t.thought_id == tid) = some t2 := by
  induction l with
  | nil => simp at hg
  | cons t rest ih =>
    by_cases ht : t.thought_id = tid
    · simp [List.find?_cons, ht, hid]
    · have hbeq : (t.thought_id == tid) = false := by simpa using ht
      simp only [List.find?_cons, hbeq] at hg
      simp only [List.map_cons, List.find?_cons, hbeq, Bool.false_eq_true, if_false]
      exact ih hg

theorem get_thought_updateThought {s : EnsembleSession} {tid : Nat}
    {thought : CollaborativeThought} (hg : get_thought s tid = some thought)
    (t2 : CollaborativeThought) (hid : t2.thought_id = tid) :
    get_thought (updateThought s tid t2) tid = some t2 := by
  unfold get_thought updateThought
  exact find?_map_update hg t2 hid

theorem dictGet_dictSet_self (m : List (String × ℚ)) (k : String) (v : ℚ) :
    dictGet (dictSet m k v) k = some v := by
  induction m with
  | nil => simp [dictSet, dictGet]
  | cons p rest ih =>
    by_cases hp : p.1 = k
    · simp [dictSet, dictGet, hp]
    · have hbeq : (p.1 == k) = false := by simpa using hp
      simp only [dictSet, hbeq, Bool.false_eq_true, if_false]
      rw [dictGet, List.find?_cons]
      simp only [hbeq]
      exact ih

theorem dictGet_dictSet_other (m : List (String × ℚ)) (k k2 : String) (v : ℚ)
    (hne : k2 ≠ k) : dictGet (dictSet m k v) k2 = dictGet m k2 := by
  have hkne : (k == k2) = false := by
    simpa using fun h => hne h.symm
  induction m with
  | nil =>
    simp only [dictSet, dictGet, List.find?_cons, hkne, Bool.false_eq_true, if_false]
  | cons p rest ih =>
    by_cases hp : p.1 = k
    · have hpbeq : (p.1 == k) = true := by simpa using hp
      have hp2 : (p.1 == k2) = false := by
        simp only [beq_eq_false_iff_ne, ne_eq, hp]
        exact fun h => hne h.symm
      simp only [dictSet, hpbeq, if_true]
      rw [dictGet, dictGet, List.find?_cons, List.find?_cons, hkne, hp2]
    · have hpbeq : (p.1 == k) = false := by simpa using hp
      simp only [dictSet, hpbeq, Bool.false_eq_true, if_false]
      rw [dictGet, dictGet, List.find?_cons, List.find?_cons]
      cases h2 : (p.1 == k2) with
      | true => rfl
      | false => exact ih

theorem keys_dictSet_sub (m : List (String × ℚ)) (k : String) (v : ℚ) :
    ∀ x ∈ (dictSet m k v).map Prod.fst, x ∈ m.map Prod.fst ∨ x = k := by
  induction m with
  | nil =>
    intro x hx
    simp [dictSet] at hx
    right
    exact hx
  | cons p rest ih =>
    intro x hx
    by_cases hp : p.1 = k
    · have hpbeq : (p.1 == k) = true := by simpa using hp
      simp only [dictSet, hpbeq, if_true, List.map_cons, List.mem_cons] at hx
      rcases hx with rfl | hx
      · right; rfl
      · left; simp [hx]
    · have hpbeq : (p.1 == k) = false := by simpa using hp
      simp only [dictSet, hpbeq, Bool.false_eq_true, if_false, List.map_cons,
        List.mem_cons] at hx
      rcases hx with rfl | hx
      · left; simp
      · rcases ih x hx with h | h
        · left; simp [h]
        · right; exact h

theorem keys_dictSet_nodup (m : List (String × ℚ)) (k : String) (v : ℚ)
    (h : (m.map Prod.fst).Nodup) : ((dictSet m k v).map Prod.fst).Nodup := by
  induction m with
  | nil => simp [dictSet]
  | cons p rest ih =>
    simp only [List.map_cons, List.nodup_cons] at h
    by_cases hp : p.1 = k
    · have hpbeq : (p.1 == k) = true := by simpa using hp
      simp only [dictSet, hpbeq, if_true, List.map_cons, List.nodup_cons]
      exact ⟨hp ▸ h.1, h.2⟩
    · have hpbeq : (p.1 == k) = false := by simpa using hp
      simp only [dictSet, hpbeq, Bool.false_eq_true, if_false, List.map_cons,
        List.nodup_cons]
      refine ⟨?_, ih h.2⟩
      intro hmem
      rcases keys_dictSet_sub rest k v p.1 hmem with hin | heq
      · exact h.1 hin
      · exact hp heq

/-- C8: a successful endorse call clamps the level into [-1, 1], overwrites
the endorsing agent's entry in the thought's endorsement map (leaving every
other agent's entry untouched and keeping keys duplicate-free, so the map
holds at most one entry per agent), and appends a challenge record
`{from_agent, concern, level}` iff the clamped level is negative and a
non-empty note was supplied. -/
theorem claim_C8 (cfg : ServerConfig) (st : SessionState) (now : ℚ) (tid : Nat)
    (agent : String) (lvl : ℚ) (note : String) (thought : CollaborativeThought)
    (hg : get_thought st.session tid = some thought)
    (hmem : agent ∈ st.session.agent_lenses)
    (hrate : (is_rate_limited cfg st.rl now st.session.session_id agent).1 = false)
    (hnote : ¬(note ≠ "" ∧ note.length > cfg.max_note_length))
    (hself : ¬ agent = thought.agent_lens)
    (hmax : ¬ thought.endorsements.length ≥ cfg.max_endorsements_per_thought) :
    (runOp cfg st (.endorse now tid agent lvl note)).1 = .ok ∧
    get_thought (runOp cfg st (.endorse now tid agent lvl note)).2.session tid
      = some { thought with
          endorsements := dictSet thought.endorsements agent (max (-1) (min 1 lvl))
          challenges := thought.challenges ++
            (if max (-1) (min 1 lvl) < 0 ∧ note ≠ "" then
               [{ from_agent := agent, concern := note,
                  level := max (-1) (min 1 lvl) }]
             else []) } ∧
    -1 ≤ max (-1) (min 1 lvl) ∧ max (-1) (min 1 lvl) ≤ 1 ∧
    dictGet (dictSet thought.endorsements agent (max (-1) (min 1 lvl))) agent
      = some (max (-1) (min 1 lvl)) ∧
    (∀ k2, k2 ≠ agent →
      dictGet (dictSet thought.endorsements agent (max (-1) (min 1 lvl))) k2
        = dictGet thought.endorsements k2) ∧
    ((thought.endorsements.map Prod.fst).Nodup →
      ((dictSet thought.endorsements agent (max (-1) (min 1 lvl))).map Prod.fst).Nodup) := by
  have hstep : runOp cfg st (.endorse now tid agent lvl note)
      = (.ok,
         { session := updateThought st.session tid
             { thought with
                 endorsements := dictSet thought.endorsements agent
                   (max (-1) (min 1 lvl))
                 challenges := thought.challenges ++
                   (if max (-1) (min 1 lvl) < 0 ∧ note ≠ "" then
                      [{ from_agent := agent, concern := note,
                         level := max (-1) (min 1 lvl) }]
                    else []) }
           rl := record_agent_op
             (is_rate_limited cfg st.rl now st.session.session_id agent).2
             now st.session.session_id agent }) := by
    simp [runOp, tool_endorse_challenge, hg, hmem, hrate, hnote, hself, hmax,
      dispatchOutcome]
  refine ⟨?_, ?_, le_max_left _ _, max_le (by norm_num) (min_le_left _ _), ?_, ?_, ?_⟩
  · rw [hstep]
  · rw [hstep]
    refine get_thought_updateThought hg _ ?_
    simpa using get_thought_id hg
  · exact dictGet_dictSet_self _ _ _
  · intro k2 hk2
    exact dictGet_dictSet_other _ _ _ _ hk2
  · intro hnd
    exact keys_dictSet_nodup _ _ _ hnd

/-- C8 witness: a concrete successful endorse by `skeptical` on the
`analytical` thought with level 1 and empty note. -/
theorem claim_C8_witness :
    (runOp defaultConfig stC7unlim (.endorse 0 1 "skeptical" 1 "")).1 = .ok ∧
    get_thought (runOp defaultConfig stC7unlim (.endorse 0 1 "skeptical" 1 "")).2.session 1
      = some { exThought 1 "analytical" [] [] with
          endorsements := dictSet (exThought 1 "analytical" [] []).endorsements "skeptical"
            (max (-1) (min 1 1))
          challenges := (exThought 1 "analytical" [] []).challenges ++
            (if max (-1) (min 1 1) < 0 ∧ ("" : String) ≠ "" then
               [{ from_agent := "skeptical", concern := "", level := max (-1) (min 1 1) }]
             else []) } ∧
    -1 ≤ max (-1) (min 1 (1 : ℚ)) ∧ max (-1) (min 1 (1 : ℚ)) ≤ 1 ∧
    dictGet (dictSet (exThought 1 "analytical" [] []).endorsements "skeptical"
        (max (-1) (min 1 1))) "skeptical" = some (max (-1) (min 1 1)) ∧
    (∀ k2, k2 ≠ "skeptical" →
      dictGet (dictSet (exThought 1 "analytical" [] []).endorsements "skeptical"
          (max (-1) (min 1 1))) k2
        = dictGet (exThought 1 "analytical" [] []).endorsements k2) ∧
    (((exThought 1 "analytical" [] []).endorsements.map Prod.fst).Nodup →
      (((dictSet (exThought 1 "analytical" [] []).endorsements "skeptical"
          (max (-1) (min 1 1))).map Prod.fst)).Nodup) :=
  claim_C8 defaultConfig stC7unlim 0 1 "skeptical" 1 "" (exThought 1 "analytical" [] [])
    (by decide) (by decide) (by decide) (by decide) (by decide) (by decide)

/-- C10: when a thought's endorsement map already holds at least the
configured maximum number of entries, an endorse call that reaches the
capacity check fails with `max_endorsements_reached` for EVERY agent — the
check `len(thought.endorsements) >= max` runs before looking at whether the
agent is already among the endorsers, so re-endorsement that would only
overwrite is rejected too — and the session is unchanged. -/
theorem claim_C10 (cfg : ServerConfig) (st : SessionState) (now : ℚ) (tid : Nat)
    (agent : String) (lvl : ℚ) (note : String) (thought : CollaborativeThought)
    (hg : get_thought st.session tid = some thought)
    (hmem : agent ∈ st.session.agent_lenses)
    (hrate : (is_rate_limited cfg st.rl now st.session.session_id agent).1 = false)
    (hnote : ¬(note ≠ "" ∧ note.length > cfg.max_note_length))
    (hself : ¬ agent = thought.agent_lens)
    (hmax : thought.endorsements.length ≥ cfg.max_endorsements_per_thought) :
    (runOp cfg st (.endorse now tid agent lvl note)).1
      = .err "max_endorsements_reached" none ∧
    (runOp cfg st (.endorse now tid agent lvl note)).2.session = st.session := by
  constructor
  · simp [runOp, tool_endorse_challenge, hg, hmem, hrate, hnote, hself, hmax,
      dispatchOutcome]
  · simp [runOp, tool_endorse_challenge, hg, hmem, hrate, hnote, hself, hmax,
      dispatchOutcome]

/-- Configuration with the per-thought endorsement cap set to 1. -/
def cfgC10 : ServerConfig := { defaultConfig with max_endorsements_per_thought := 1 }

/-- Session with one `analytical` thought already carrying one endorsement,
by `skeptical`. -/
def stC10 : SessionState :=
  ⟨{ session_id := "s"
     problem := "p"
     agent_lenses := ["analytical", "skeptical"]
     thoughts := [exThought 1 "analytical" [] [("skeptical", 1)]]
     integrations := []
     agent_thoughts := [("analytical", [1])]
     next_thought_id := 2
     next_proposal_id := 1 },
   ⟨[]⟩⟩

/-- C10 witness: with the cap at 1 and one existing endorsement by
`skeptical`, even `skeptical` itself — already in the map, whose call would
only overwrite — is rejected with `max_endorsements_reached`, and the
session is unchanged. -/
theorem claim_C10_witness :
    (runOp cfgC10 stC10 (.endorse 0 1 "skeptical" 1 "")).1
      = .err "max_endorsements_reached" none ∧
    (runOp cfgC10 stC10 (.endorse 0 1 "skeptical" 1 "")).2.session = stC10.session ∧
    "skeptical" ∈ ((exThought 1 "analytical" [] [("skeptical", 1)]).endorsements.map
      Prod.fst) := by
  refine ⟨?_, ?_, by decide⟩
  · exact (claim_C10 cfgC10 stC10 0 1 "skeptical" 1 ""
      (exThought 1 "analytical" [] [("skeptical", 1)])
      (by decide) (by decide) (by decide) (by decide) (by decide) (by decide)).1
  · exact (claim_C10 cfgC10 stC10 0 1 "skeptical" 1 ""
      (exThought 1 "analytical" [] [("skeptical", 1)])
      (by decide) (by decide) (by decide) (by decide) (by decide) (by decide)).2

/-- Ids of the session's thoughts are exactly 1..N in insertion order, and
the next-id counter stands at N+1. -/
def IdsOk (s : EnsembleSession) : Prop :=
  s.thoughts.map (fun t => t.thought_id) = List.range' 1 s.thoughts.length ∧
  s.next_thought_id = s.thoughts.length + 1

/-- Combined invariant of sessions reachable through the public operations. -/
def ReachInv (s : EnsembleSession) : Prop := IdsOk s ∧ DecrSess s

theorem add_thought_cases (cfg : ServerConfig) (s : EnsembleSession)
    (th : CollaborativeThought) :
    (∃ m, add_thought cfg s th = .error m) ∨
    add_thought cfg s th = .ok ({ s with
        thoughts := s.thoughts ++ [{ th with thought_id := s.next_thought_id }]
        agent_thoughts := agentAppend s.agent_thoughts th.agent_lens s.next_thought_id
        next_thought_id := s.next_thought_id + 1 }, s.next_thought_id) := by
  unfold add_thought
  split_ifs
  · left; exact ⟨_, rfl⟩
  · left; exact ⟨_, rfl⟩
  · right; rfl

theorem get_thought_lt {s : EnsembleSession} (h : IdsOk s) {tid : Nat}
    {u : CollaborativeThought} (hg : get_thought s tid = some u) :
    tid < s.next_thought_id := by
  have hmem : u ∈ s.thoughts := List.mem_of_find?_eq_some hg
  have hid : u.thought_id = tid := get_thought_id hg
  have : tid ∈ s.thoughts.map (fun t => t.thought_id) :=
    hid ▸ List.mem_map_of_mem _ hmem
  rw [h.1, List.mem_range'_1] at this
  have h2 := h.2
  omega

theorem map_ids_updateThought {s : EnsembleSession} {tid : Nat}
    {thought : CollaborativeThought} (hg : get_thought s tid = some thought)
    (t2 : CollaborativeThought) (hid : t2.thought_id = thought.thought_id) :
    (updateThought s tid t2).thoughts.map (fun t => t.thought_id)
      = s.thoughts.map (fun t => t.thought_id) := by
  unfold updateThought
  simp only [List.map_map]
  refine List.map_congr_left ?_
  intro t _
  simp only [Function.comp]
  by_cases ht : t.thought_id = tid
  · have hbeq : (t.thought_id == tid) = true := by simpa using ht
    rw [hbeq, if_pos rfl, hid, get_thought_id hg, ht]
  · have hbeq : (t.thought_id == tid) = false := by simpa using ht
    rw [hbeq]
    simp

theorem decrSess_updateThought {s : EnsembleSession} {tid : Nat}
    {thought : CollaborativeThought} (hg : get_thought s tid = some thought)
    (t2 : CollaborativeThought) (hid : t2.thought_id = thought.thought_id)
    (hb : t2.builds_on = thought.builds_on) (hd : DecrSess s) :
    DecrSess (updateThought s tid t2) := by
  intro t' ht' d hdm
  unfold updateThought at ht'
  simp only at ht'
  rcases List.mem_map.mp ht' with ⟨t, htm, hteq⟩
  by_cases ht : t.thought_id = tid
  · have hbeq : (t.thought_id == tid) = true := by simpa using ht
    rw [hbeq, if_pos rfl] at hteq
    subst hteq
    rw [hb] at hdm
    rw [hid]
    exact hd thought (List.mem_of_find?_eq_some hg) d hdm
  · have hbeq : (t.thought_id == tid) = false := by simpa using ht
    rw [hbeq] at hteq
    simp only [Bool.false_eq_true, if_false] at hteq
    subst hteq
    exact hd t htm d hdm

theorem runOp_preserves (cfg : ServerConfig) (op : Op) {st : SessionState}
    (h : ReachInv st.session) :
    ReachInv (runOp cfg st op).2.session ∧
    (runOp cfg st op).2.session.thoughts.length
      = st.session.thoughts.length + contribFlag op (runOp cfg st op).1 := by
  obtain ⟨⟨hids, hnext⟩, hdecr⟩ := h
  cases op with
  | contribute now agent text bOn w =>
    by_cases h1 : agent ∈ st.session.agent_lenses
    case neg =>
      constructor <;>
        simp [runOp, tool_contribute, h1, dispatchOutcome, contribFlag, hids, hnext, hdecr,
          ReachInv, IdsOk]
    by_cases h2 : (is_rate_limited cfg st.rl now st.session.session_id agent).1 = true
    case pos =>
      constructor <;>
        simp [runOp, tool_contribute, h1, h2, dispatchOutcome, contribFlag, hids, hnext,
          hdecr, ReachInv, IdsOk]
    by_cases h3 : text.length > cfg.max_thought_length
    case pos =>
      constructor <;>
        simp [runOp, tool_contribute, h1, h2, h3, dispatchOutcome, contribFlag, hids,
          hnext, hdecr, ReachInv, IdsOk]
    by_cases h4 : bOn.any (fun tid => (get_thought st.session tid).isNone) = true
    case pos =>
      constructor <;>
        simp [runOp, tool_contribute, h1, h2, h3, h4, dispatchOutcome, contribFlag, hids,
          hnext, hdecr, ReachInv, IdsOk]
    rcases add_thought_cases cfg st.session
        { thought_id := 0
          thought := text
          agent_lens := agent
          builds_on := bOn
          weight := max 0 (min 1 w)
          endorsements := []
          challenges := [] } with ⟨m, hm⟩ | hok
    · constructor <;>
        simp [runOp, tool_contribute, h1, h2, h3, h4, hm, dispatchOutcome, contribFlag,
          hids, hnext, hdecr, ReachInv, IdsOk]
    · have hstep : runOp cfg st (.contribute now agent text bOn w)
          = (.ok,
             { session := { st.session with
                 thoughts := st.session.thoughts ++
                   [{ thought_id := st.session.next_thought_id
                      thought := text
                      agent_lens := agent
                      builds_on := bOn
                      weight := max 0 (min 1 w)
                      endorsements := []
                      challenges := [] }]
                 agent_thoughts := agentAppend st.session.agent_thoughts agent
                   st.session.next_thought_id
                 next_thought_id := st.session.next_thought_id + 1 }
               rl := record_agent_op
                 (is_rate_limited cfg st.rl now st.session.session_id agent).2
                 now st.session.session_id agent }) := by
        simp [runOp, tool_contribute, h1, h2, h3, h4, hok, dispatchOutcome]
      rw [hstep]
      refine ⟨⟨⟨?_, ?_⟩, ?_⟩, ?_⟩
      · simp only [List.map_append, List.length_append, List.map_cons, List.map_nil,
          List.length_cons, List.length_nil]
        rw [hids, hnext]
        rw [List.range'_concat]
        simp [Nat.add_comm]
      · simp [hnext]
      · intro t' ht' d hdm
        simp only [List.mem_append, List.mem_singleton] at ht'
        rcases ht' with ht' | ht'
        · exact hdecr t' ht' d hdm
        · subst ht'
          simp only at hdm ⊢
          have hnone : ¬ (get_thought st.session d).isNone := by
            intro hno
            have : bOn.any (fun tid => (get_thought st.session tid).isNone) = true :=
              List.any_eq_true.mpr ⟨d, hdm, by simpa using hno⟩
            exact h4 this
          cases hgd : get_thought st.session d with
          | none => exact absurd (by simp [hgd]) hnone
          | some u => exact get_thought_lt ⟨hids, hnext⟩ hgd
      · simp [contribFlag]
  | endorse now tid agent lvl note =>
    cases hg : get_thought st.session tid with
    | none =>
      constructor <;>
        simp [runOp, tool_endorse_challenge, hg, dispatchOutcome, contribFlag, hids,
          hnext, hdecr, ReachInv, IdsOk]
    | some thought =>
      by_cases h1 : agent ∈ st.session.agent_lenses
      case neg =>
        constructor <;>
          simp [runOp, tool_endorse_challenge, hg, h1, dispatchOutcome, contribFlag,
            hids, hnext, hdecr, ReachInv, IdsOk]
      by_cases h2 : (is_rate_limited cfg st.rl now st.session.session_id agent).1 = true
      case pos =>
        constructor <;>
          simp [runOp, tool_endorse_challenge, hg, h1, h2, dispatchOutcome, contribFlag,
            hids, hnext, hdecr, ReachInv, IdsOk]
      by_cases h3 : note ≠ "" ∧ note.length > cfg.max_note_length
      case pos =>
        constructor <;>
          simp [runOp, tool_endorse_challenge, hg, h1, h2, h3, dispatchOutcome,
            contribFlag, hids, hnext, hdecr, ReachInv, IdsOk]
      by_cases h4 : agent = thought.agent_lens
      case pos =>
        subst h4
        constructor <;>
          simp [runOp, tool_endorse_challenge, hg, h1, h2, h3, dispatchOutcome,
            contribFlag, hids, hnext, hdecr, ReachInv, IdsOk]
      by_cases h5 : thought.endorsements.length ≥ cfg.max_endorsements_per_thought
      case pos =>
        constructor <;>
          simp [runOp, tool_endorse_challenge, hg, h1, h2, h3, h4, h5, dispatchOutcome,
            contribFlag, hids, hnext, hdecr, ReachInv, IdsOk]
      set t2 : CollaborativeThought :=
        { thought with
            endorsements := dictSet thought.endorsements agent (max (-1) (min 1 lvl))
            challenges := thought.challenges ++
              (if max (-1) (min 1 lvl) < 0 ∧ note ≠ "" then
                 [{ from_agent := agent, concern := note,
                    level := max (-1) (min 1 lvl) }]
               else []) } with ht2
      have hstep : (runOp cfg st (.endorse now tid agent lvl note)).2.session
          = updateThought st.session tid t2 := by
        simp [runOp, tool_endorse_challenge, hg, h1, h2, h3, h4, h5, dispatchOutcome,
          ht2]
      have hflag : contribFlag (.endorse now tid agent lvl note)
          (runOp cfg st (.endorse now tid agent lvl note)).1 = 0 := by
        simp [contribFlag]
      rw [hstep, hflag]
      have hlen : (updateThought st.session tid t2).thoughts.length
          = st.session.thoughts.length := by
        simp [updateThought]
      refine ⟨⟨⟨?_, ?_⟩, ?_⟩, by simpa using hlen⟩
      · rw [map_ids_updateThought hg t2 rfl, hlen, hids]
      · rw [hlen]
        simpa [updateThought] using hnext
      · exact decrSess_updateThought hg t2 rfl rfl hdecr
  | integrate now agent integ rec =>
    by_cases h1 : agent ∈ st.session.agent_lenses
    case neg =>
      constructor <;>
        simp [runOp, tool_propose_integration, h1, dispatchOutcome, contribFlag, hids,
          hnext, hdecr, ReachInv, IdsOk]
    by_cases h2 : (is_rate_limited cfg st.rl now st.session.session_id agent).1 = true
    case pos =>
      constructor <;>
        simp [runOp, tool_propose_integration, h1, h2, dispatchOutcome, contribFlag,
          hids, hnext, hdecr, ReachInv, IdsOk]
    by_cases h3 : integ.length > cfg.max_integration_length
    case pos =>
      constructor <;>
        simp [runOp, tool_propose_integration, h1, h2, h3, dispatchOutcome, contribFlag,
          hids, hnext, hdecr, ReachInv, IdsOk]
    by_cases h4 : rec.length > cfg.max_reconciles_per_integration
    case pos =>
      constructor <;>
        simp [runOp, tool_propose_integration, h1, h2, h3, h4, dispatchOutcome,
          contribFlag, hids, hnext, hdecr, ReachInv, IdsOk]
    by_cases h5 : rec.any (fun tid => (get_thought st.session tid).isNone) = true
    case pos =>
      constructor <;>
        simp [runOp, tool_propose_integration, h1, h2, h3, h4, h5, dispatchOutcome,
          contribFlag, hids, hnext, hdecr, ReachInv, IdsOk]
    have hsess : (runOp cfg st (.integrate now agent integ rec)).2.session.thoughts
        = st.session.thoughts := by
      simp [runOp, tool_propose_integration, h1, h2, h3, h4, h5, dispatchOutcome,
        add_integration]
    have hnext2 : (runOp cfg st (.integrate now agent integ rec)).2.session.next_thought_id
        = st.session.next_thought_id := by
      simp [runOp, tool_propose_integration, h1, h2, h3, h4, h5, dispatchOutcome,
        add_integration]
    refine ⟨⟨⟨?_, ?_⟩, ?_⟩, ?_⟩
    · rw [hsess]; exact hids
    · rw [hnext2, hsess]; exact hnext
    · intro t ht d hd
      rw [hsess] at ht
      exact hdecr t ht d hd
    · rw [hsess]
      simp [contribFlag]

theorem runTrace_inv (cfg : ServerConfig) :
    ∀ (ops : List Op) (st : SessionState), ReachInv st.session →
      ReachInv (runTrace cfg st ops).1.session ∧
      (runTrace cfg st ops).1.session.thoughts.length
        = st.session.thoughts.length + (runTrace cfg st ops).2 := by
  intro ops
  induction ops with
  | nil =>
    intro st h
    exact ⟨h, rfl⟩
  | cons op rest ih =>
    intro st h
    obtain ⟨hinv1, hlen1⟩ := runOp_preserves cfg op h
    obtain ⟨hinvF, hlenF⟩ := ih (runOp cfg st op).2 hinv1
    refine ⟨hinvF, ?_⟩
    rw [runTrace]
    simp only
    rw [hlenF, hlen1]
    omega

/-- C2: for every session built through any sequence of public operations —
however many were rejected along the way — the stored thought ids are
exactly the contiguous sequence 1..N in insertion order, where N is the
number of successful contribute calls: no id skipped, repeated, or reused. -/
theorem claim_C2 (cfg : ServerConfig) (sid problem : String) (lenses : List String)
    (ops : List Op) :
    (runTrace cfg (initState sid problem lenses) ops).1.session.thoughts.map
        (fun t => t.thought_id)
      = List.range' 1 (runTrace cfg (initState sid problem lenses) ops).2 ∧
    (runTrace cfg (initState sid problem lenses) ops).1.session.thoughts.length
      = (runTrace cfg (initState sid problem lenses) ops).2 := by
  have h0 : ReachInv (initState sid problem lenses).session := by
    refine ⟨⟨?_, ?_⟩, ?_⟩
    · simp [initState, mkEnsembleSession]
    · simp [initState, mkEnsembleSession]
    · intro t ht
      simp [initState, mkEnsembleSession] at ht
  obtain ⟨hinv, hlen⟩ := runTrace_inv cfg ops _ h0
  have hN : (runTrace cfg (initState sid problem lenses) ops).1.session.thoughts.length
      = (runTrace cfg (initState sid problem lenses) ops).2 := by
    simpa [initState, mkEnsembleSession] using hlen
  refine ⟨?_, hN⟩
  rw [hinv.1.1, hN]

/-- C9: in every session built solely through the public operations, each
`builds_on` reference is strictly smaller than the referencing thought's own
id (references are validated against existing thoughts and ids increase), so
the dependency graph is acyclic and `detect_cycles` returns the empty list. -/
theorem claim_C9 (cfg : ServerConfig) (sid problem : String) (lenses : List String)
    (ops : List Op) :
    (∀ t ∈ (runTrace cfg (initState sid problem lenses) ops).1.session.thoughts,
      ∀ d ∈ t.builds_on, d < t.thought_id) ∧
    detect_cycles (runTrace cfg (initState sid problem lenses) ops).1.session = [] := by
  have h0 : ReachInv (initState sid problem lenses).session := by
    refine ⟨⟨?_, ?_⟩, ?_⟩
    · simp [initState, mkEnsembleSession]
    · simp [initState, mkEnsembleSession]
    · intro t ht
      simp [initState, mkEnsembleSession] at ht
  obtain ⟨hinv, _⟩ := runTrace_inv cfg ops _ h0
  exact ⟨hinv.2, detect_cycles_of_decr hinv.2⟩

end MCP
